import Mathlib

/-!
Shallow embedding of `app/api/create-zip/route.js`: a session-cached,
retrying PDF fetcher with batched orchestration and a zip response.

Bytes are modelled as `List Nat`, JSON values as an inductive `Json`,
the module-global session cache (`sessionCookies`, `sessionExpiry`) as an
explicit `SessState` record threaded through the functions, and network
responses as oracle inputs.  Observable effects (login calls, document
fetches, sleeps, batch launches) are recorded in explicit traces.
-/

namespace CreateZip

/-- JSON values, as produced by `req.json()`. -/
inductive Json where
  | null : Json
  | bool : Bool → Json
  | num : Int → Json
  | str : String → Json
  | arr : List Json → Json
  | obj : List (String × Json) → Json
deriving Repr

/-- JavaScript truthiness of a JSON value. -/
def jsTruthy : Json → Bool
  | .null => false
  | .bool b => b
  | .num n => n != 0
  | .str s => s != ""
  | .arr _ => true
  | .obj _ => true

/-- Property lookup `v[key]`: `none` models `undefined` (absent field, or
access on a non-object such as a number, string, boolean or array). -/
def getField : Json → String → Option Json
  | .obj fields, key => fields.lookup key
  | _, _ => none

/-- JavaScript truthiness of a possibly-`undefined` value. -/
def jsTruthyOpt : Option Json → Bool
  | some v => jsTruthy v
  | none => false

mutual

/-- JavaScript template-literal stringification of a JSON value. -/
def jsStr : Json → String
  | .null => "null"
  | .bool b => cond b "true" "false"
  | .num n => toString n
  | .str s => s
  | .arr xs => jsStrArr xs
  | .obj _ => "[object Object]"

/-- `Array.prototype.toString`: elements joined with commas. -/
def jsStrArr : List Json → String
  | [] => ""
  | [x] => jsStrElem x
  | x :: xs => jsStrElem x ++ "," ++ jsStrArr xs

/-- An array element stringifies like the value, except `null` becomes empty. -/
def jsStrElem : Json → String
  | .null => ""
  | x => jsStr x

end

/-- `isPDF(buffer)`: the buffer is at least 4 bytes and starts with the
UTF-8 bytes of `"%PDF"` (`0x25 0x50 0x44 0x46`). -/
def pdfSignature : List Nat := [37, 80, 68, 70]

def isPDF (buffer : List Nat) : Bool :=
  if buffer.length < 4 then false
  else buffer.take 4 == pdfSignature

/-- The module-global session cache: `sessionCookies` and `sessionExpiry`,
each initially `null` (here `none`). -/
structure SessState where
  cookies : Option String
  expiry : Option Nat
deriving Repr, DecidableEq

/-- The login endpoint's observable answer: the `Set-Cookie` header values. -/
structure LoginResp where
  setCookies : List String
deriving Repr, DecidableEq

/-- Observable effects of the session/fetch code. -/
inductive Ev where
  | login : Ev
  | docFetch : Ev
deriving Repr, DecidableEq

/-- `c.split(';')[0]`: the part of a cookie string before the first `;`
(the whole string when it has none). -/
def cookiePart (c : String) : String := ⟨c.data.takeWhile (fun ch => ch ≠ ';')⟩

/-- `login()`: fails when the response carries zero cookies; otherwise
stores the semicolon-joined `name=value` parts and an expiry 30 minutes
ahead, and returns the joined header. -/
def loginM (st : SessState) (now : Nat) (resp : LoginResp) :
    Except String String × SessState × List Ev :=
  if resp.setCookies.length = 0 then
    (.error "Login failed - no cookies received", st, [.login])
  else
    let header := String.intercalate "; " (resp.setCookies.map cookiePart)
    (.ok header, { cookies := some header, expiry := some (now + 30 * 60 * 1000) }, [.login])

/-- Truthiness of the `sessionCookies` global (`null` or a string). -/
def jsTruthyStr : Option String → Bool
  | some s => s != ""
  | none => false

/-- Truthiness of the `sessionExpiry` global (`null` or a number). -/
def jsTruthyNum : Option Nat → Bool
  | some n => n != 0
  | none => false

/-- The cache-validity test `sessionCookies && sessionExpiry && Date.now() < sessionExpiry`. -/
def cacheFresh (st : SessState) (now : Nat) : Bool :=
  jsTruthyStr st.cookies && jsTruthyNum st.expiry && decide (now < st.expiry.getD 0)

/-- `getSessionCookies()`: return the cached header when the cache test
passes, otherwise log in. -/
def getSessionCookies (st : SessState) (now : Nat) (resp : LoginResp) :
    Except String String × SessState × List Ev :=
  if cacheFresh st now then
    (.ok (st.cookies.getD ""), st, [])
  else
    loginM st now resp

/-- A document-endpoint HTTP response as seen by the fetcher. -/
structure FetchResp where
  status : Nat
  statusText : String
  location : Option String
  body : List Nat
deriving Repr, DecidableEq

/-- `response.ok`: status in the inclusive range 200–299. -/
def respOk (r : FetchResp) : Bool :=
  decide (200 ≤ r.status) && decide (r.status ≤ 299)

/-- Whether `needle` is a leading segment of `hay`. -/
def leadsList : List Char → List Char → Bool
  | [], _ => true
  | _ :: _, [] => false
  | a :: as, b :: bs => a == b && leadsList as bs

/-- Whether `needle` occurs contiguously inside `hay`. -/
def hasInfixList (needle : List Char) : List Char → Bool
  | [] => leadsList needle []
  | c :: rest => leadsList needle (c :: rest) || hasInfixList needle rest

/-- `s.includes(sub)`: `sub` occurs as a contiguous substring of `s`. -/
def jsIncludes (s sub : String) : Bool :=
  hasInfixList sub.data s.data

/-- `location && location.includes('forward=')`: the redirect target marks a
login redirect. -/
def locForward (r : FetchResp) : Bool :=
  match r.location with
  | some l => jsTruthy (.str l) && jsIncludes l "forward="
  | none => false

/-- The oracle for a single attempt of the fetch loop: the current time, the
login answer `getSessionCookies` would see, the document response, and — for
the login-redirect path — the re-login answer and the retried document
response. -/
structure AttemptEnv where
  now : Nat
  loginResp : LoginResp
  resp1 : FetchResp
  reloginResp : LoginResp
  resp2 : FetchResp
deriving Repr, DecidableEq

/-- The body of one attempt of `generatePdfForReservation` (lines 92–148):
obtain cookies, fetch the document, handle the `302` login redirect by
invalidating the session and retrying once, reject non-success statuses and
non-PDF bodies, and return the buffer. -/
def attemptStep (st : SessState) (env : AttemptEnv) :
    Except String (List Nat) × SessState × List Ev :=
  match getSessionCookies st env.now env.loginResp with
  | (.error e, st1, evs1) => (.error e, st1, evs1)
  | (.ok _, st1, evs1) =>
    if env.resp1.status = 302 && locForward env.resp1 then
      -- session expired: set `sessionCookies = null` and re-login, then
      -- retry the document request with the new cookies
      match getSessionCookies { st1 with cookies := none } env.now env.reloginResp with
      | (.error e, st3, evs2) => (.error e, st3, (evs1 ++ [.docFetch]) ++ evs2)
      | (.ok _, st3, evs2) =>
        if !respOk env.resp2 then
          (.error ("HTTP " ++ toString env.resp2.status ++ ": " ++ env.resp2.statusText),
            st3, (evs1 ++ [.docFetch]) ++ evs2 ++ [.docFetch])
        else if !isPDF env.resp2.body then
          (.error "Response is not a valid PDF (likely HTML error page)",
            st3, (evs1 ++ [.docFetch]) ++ evs2 ++ [.docFetch])
        else
          (.ok env.resp2.body, st3, (evs1 ++ [.docFetch]) ++ evs2 ++ [.docFetch])
    else if !respOk env.resp1 && env.resp1.status ≠ 302 then
      (.error ("HTTP " ++ toString env.resp1.status ++ ": " ++ env.resp1.statusText),
        st1, evs1 ++ [.docFetch])
    else if !isPDF env.resp1.body then
      (.error "Response is not a valid PDF (likely HTML error page)", st1, evs1 ++ [.docFetch])
    else
      (.ok env.resp1.body, st1, evs1 ++ [.docFetch])

/-- `Math.min(1000 * Math.pow(2, attempt - 1), 5000)`. -/
def backoff (attempt : Nat) : Nat := min (1000 * 2 ^ (attempt - 1)) 5000

/-- The record of one executed attempt of the retry loop: its number, the
backoff sleep performed before it (if any), its observable events and its
outcome. -/
structure AttemptRec where
  attempt : Nat
  sleptMs : Option Nat
  events : List Ev
  result : Except String (List Nat)
deriving Repr

/-- Result of `generatePdfForReservation`: a buffer, a thrown terminal
error, or `undefined` (the loop body never ran, only possible for
`maxRetries = 0`). -/
inductive FetchResult where
  | success : List Nat → FetchResult
  | failure : String → FetchResult
  | undef : FetchResult
deriving Repr, DecidableEq

/-- The retry loop of `generatePdfForReservation` (lines 83–158), with the
per-attempt oracle `envs` and explicit fuel (`fuel = maxRetries + 1 - attempt`
at every call). -/
def fetchGo (envs : Nat → AttemptEnv) (maxRetries : Nat) :
    SessState → Nat → Nat → FetchResult × SessState × List AttemptRec
  | st, _, 0 => (.undef, st, [])
  | st, attempt, fuel + 1 =>
    let slept := if 1 < attempt then some (backoff attempt) else none
    match attemptStep st (envs attempt) with
    | (.ok buf, st', evs) =>
      (.success buf, st', [⟨attempt, slept, evs, .ok buf⟩])
    | (.error msg, st', evs) =>
      if attempt = maxRetries then
        (.failure ("Failed after " ++ toString maxRetries ++ " attempts: " ++ msg), st',
          [⟨attempt, slept, evs, .error msg⟩])
      else
        let rest := fetchGo envs maxRetries st' (attempt + 1) fuel
        (rest.1, rest.2.1, ⟨attempt, slept, evs, .error msg⟩ :: rest.2.2)

/-- `generatePdfForReservation(htlCode, resId, maxRetries = 3)`: run the
attempt loop from attempt 1. -/
def generatePdfForReservation (envs : Nat → AttemptEnv) (st : SessState)
    (maxRetries : Nat := 3) : FetchResult × SessState × List AttemptRec :=
  fetchGo envs maxRetries st 1 maxRetries

/-- A validated reservation: the raw `htl_code` and `res_id` values kept
from the request element. -/
structure Reservation where
  htl_code : Json
  res_id : Json
deriving Repr

/-- One element of `pdfResults`. -/
structure PdfResult where
  htl_code : Json
  res_id : Json
  filename : String
  blob : List Nat
deriving Repr

/-- The validation step for one element of `reservationIds` (lines 188–193):
property access on `null` throws a `TypeError`; a falsy `htl_code` or
`res_id` throws `'Invalid reservation object structure'`. -/
def validateItem (item : Json) : Except String Reservation :=
  match item with
  | .null => .error "Cannot read properties of null (reading 'htl_code')"
  | _ =>
    if !jsTruthyOpt (getField item "htl_code") || !jsTruthyOpt (getField item "res_id") then
      .error "Invalid reservation object structure"
    else
      .ok ⟨(getField item "htl_code").getD .null, (getField item "res_id").getD .null⟩

/-- `reservationIds.map(...)` under the inner `try`: the first invalid
element's error aborts the whole map. -/
def validateAll : List Json → Except String (List Reservation)
  | [] => .ok []
  | item :: rest =>
    match validateItem item with
    | .error e => .error e
    | .ok r =>
      match validateAll rest with
      | .error e => .error e
      | .ok rs => .ok (r :: rs)

/-- Observable batching effects of the `POST` loop: launching a group of
concurrent fetches, and the inter-batch sleep. -/
inductive BatchEv where
  | batchFetch : Nat → BatchEv
  | interDelay : Nat → BatchEv
deriving Repr, DecidableEq

def batchSize : Nat := 20

/-- `batch.map(async ({htl_code, res_id}, index) => ...)` (lines 211–227):
each element at absolute index `idx` becomes a `PdfResult` when its fetch
succeeds, `null` (here `none`) when it fails. -/
def fetchBatch (fetchRes : Nat → Except String (List Nat)) :
    List Reservation → Nat → List (Option PdfResult)
  | [], _ => []
  | r :: rest, idx =>
    (match fetchRes idx with
     | .ok blob =>
       some { htl_code := r.htl_code, res_id := r.res_id,
              filename := jsStr r.htl_code ++ "-" ++ jsStr r.res_id ++ ".pdf",
              blob := blob }
     | .error _ => none) :: fetchBatch fetchRes rest (idx + 1)

/-- The batching loop of `POST` (lines 205–236): slice off `batchSize`
reservations, fetch them (concurrently in the source; their outcomes are
independent oracle lookups here), keep the non-`null` results, sleep 200ms
when reservations remain, and continue at `i + batchSize`. -/
def runBatches (fetchRes : Nat → Except String (List Nat)) :
    List Reservation → Nat → List PdfResult × List BatchEv
  | [], _ => ([], [])
  | r0 :: rest0, i =>
    let rem := r0 :: rest0
    let batch := rem.take batchSize
    let batchResults := fetchBatch fetchRes batch i
    let rest := rem.drop batchSize
    let next := runBatches fetchRes rest (i + batchSize)
    (batchResults.filterMap id ++ next.1,
     .batchFetch batch.length ::
       ((if rest.isEmpty then [] else [.interDelay 200]) ++ next.2))
  termination_by rem _ => rem.length
  decreasing_by simp [List.length_drop, batchSize]; omega

/-- The handler's outgoing response: a status, headers, and either a JSON
error object or the sequence of named entries handed to the zip builder. -/
structure HttpResp where
  status : Nat
  headers : List (String × String)
  jsonError : Option String
  zipEntries : Option (List (String × List Nat))
deriving Repr

/-- `NextResponse.json({ error: msg }, { status })`. -/
def mkJsonError (status : Nat) (msg : String) : HttpResp :=
  { status := status, headers := [], jsonError := some msg, zipEntries := none }

/-- The message of the `TypeError` thrown by destructuring a `null` body. -/
def destructureMsg : String :=
  "Cannot destructure property 'reservationIds' of '(intermediate value)' as it is null."

/-- `POST(req)` (lines 174–275).  The request body is `.error e` when
`req.json()` rejects (the outer `catch` answers 500 with the message), and
`.ok j` when it yields the JSON value `j`.  `fetchRes` is the oracle giving
each reservation index's `generatePdfForReservation` outcome. -/
def POST (body : Except String Json) (fetchRes : Nat → Except String (List Nat)) :
    HttpResp × List BatchEv :=
  match body with
  | .error e => (mkJsonError 500 e, [])
  | .ok .null => (mkJsonError 500 destructureMsg, [])
  | .ok j =>
    match getField j "reservationIds" with
    | some (.arr items) =>
      match validateAll items with
      | .error msg => (mkJsonError 400 msg, [])
      | .ok reservations =>
        let res := runBatches fetchRes reservations 0
        let pdfResults := res.1
        let successCount := pdfResults.length
        let failCount := reservations.length - successCount
        if pdfResults.length = 0 then
          (mkJsonError 500 "Failed to fetch any PDFs", res.2)
        else
          ({ status := 200,
             headers := [("Content-Type", "application/zip"),
                         ("Content-Disposition", "attachment; filename=reservations.zip"),
                         ("Access-Control-Allow-Origin", "*"),
                         ("X-PDF-Success-Count", toString successCount),
                         ("X-PDF-Fail-Count", toString failCount)],
             jsonError := none,
             zipEntries := some (pdfResults.map (fun r => (r.filename, r.blob))) }, res.2)
    | _ => (mkJsonError 400 "Invalid or missing reservationIds", [])

/-! ### Lemmas about the retry loop -/

/-- Any buffer returned by a single attempt passed the PDF-signature check. -/
theorem attemptStep_ok_isPDF (st : SessState) (env : AttemptEnv) (b : List Nat)
    (st' : SessState) (evs : List Ev)
    (h : attemptStep st env = (.ok b, st', evs)) : isPDF b = true := by
  unfold attemptStep at h
  split at h
  · cases h
  · split at h
    · split at h
      · cases h
      · split at h
        · cases h
        · split at h
          · cases h
          · rename_i hpdf
            simp only [Prod.mk.injEq, Except.ok.injEq] at h
            rw [← h.1]
            simpa using hpdf
    · split at h
      · cases h
      · split at h
        · cases h
        · rename_i hpdf
          simp only [Prod.mk.injEq, Except.ok.injEq] at h
          rw [← h.1]
          simpa using hpdf

/-- The loop runs at least one attempt when it has fuel. -/
theorem fetchGo_ne_nil (envs : Nat → AttemptEnv) (mR : Nat) (st : SessState)
    (attempt fuel : Nat) (h : 0 < fuel) :
    (fetchGo envs mR st attempt fuel).2.2 ≠ [] := by
  cases fuel with
  | zero => omega
  | succ f =>
    simp only [fetchGo]
    cases hstep : attemptStep st (envs attempt) with
    | mk res rest =>
      obtain ⟨st', evs⟩ := rest
      cases res with
      | ok buf => simp
      | error msg => by_cases ha : attempt = mR <;> simp [ha]

/-- The loop makes at most `fuel` attempts. -/
theorem fetchGo_length_le (envs : Nat → AttemptEnv) (mR : Nat) :
    ∀ (fuel : Nat) (st : SessState) (attempt : Nat),
      (fetchGo envs mR st attempt fuel).2.2.length ≤ fuel := by
  intro fuel
  induction fuel with
  | zero => intro st attempt; simp [fetchGo]
  | succ f ih =>
    intro st attempt
    simp only [fetchGo]
    cases hstep : attemptStep st (envs attempt) with
    | mk res rest =>
      obtain ⟨st', evs⟩ := rest
      cases res with
      | ok buf => simp
      | error msg =>
        by_cases ha : attempt = mR
        · simp [ha]
        · simpa [ha] using ih st' (attempt + 1)

/-- Attempt numbers are consecutive, starting at the initial attempt. -/
theorem fetchGo_attempts (envs : Nat → AttemptEnv) (mR : Nat) :
    ∀ (fuel : Nat) (st : SessState) (attempt : Nat),
      (fetchGo envs mR st attempt fuel).2.2.map AttemptRec.attempt =
        List.range' attempt (fetchGo envs mR st attempt fuel).2.2.length := by
  intro fuel
  induction fuel with
  | zero => intro st attempt; simp [fetchGo]
  | succ f ih =>
    intro st attempt
    simp only [fetchGo]
    cases hstep : attemptStep st (envs attempt) with
    | mk res rest =>
      obtain ⟨st', evs⟩ := rest
      cases res with
      | ok buf => simp [List.range'_succ]
      | error msg =>
        by_cases ha : attempt = mR
        · simp [ha, List.range'_succ]
        · simpa [ha, List.range'_succ] using ih st' (attempt + 1)

/-- The backoff sleep of each executed attempt: none before attempt 1,
exactly `min (1000 * 2 ^ (attempt - 1)) 5000` before later attempts. -/
theorem fetchGo_sleeps (envs : Nat → AttemptEnv) (mR : Nat) :
    ∀ (fuel : Nat) (st : SessState) (attempt : Nat),
      ∀ r ∈ (fetchGo envs mR st attempt fuel).2.2,
        r.sleptMs = if 1 < r.attempt then some (backoff r.attempt) else none := by
  intro fuel
  induction fuel with
  | zero => intro st attempt r hr; simp [fetchGo] at hr
  | succ f ih =>
    intro st attempt r hr
    simp only [fetchGo] at hr
    cases hstep : attemptStep st (envs attempt) with
    | mk res rest =>
      obtain ⟨st', evs⟩ := rest
      rw [hstep] at hr
      cases res with
      | ok buf => simp at hr; subst hr; rfl
      | error msg =>
        by_cases ha : attempt = mR
        · simp [ha] at hr; subst hr; rfl
        · simp [ha] at hr
          cases hr with
          | inl h => subst h; rfl
          | inr h => exact ih st' (attempt + 1) r h

/-- Every attempt except the last failed (a transient failure on a non-final
attempt leads to the next attempt). -/
theorem fetchGo_dropLast_err (envs : Nat → AttemptEnv) (mR : Nat) :
    ∀ (fuel : Nat) (st : SessState) (attempt : Nat),
      ∀ r ∈ (fetchGo envs mR st attempt fuel).2.2.dropLast,
        ∃ m, r.result = .error m := by
  intro fuel
  induction fuel with
  | zero => intro st attempt r hr; simp [fetchGo] at hr
  | succ f ih =>
    intro st attempt r hr
    simp only [fetchGo] at hr
    cases hstep : attemptStep st (envs attempt) with
    | mk res rest =>
      obtain ⟨st', evs⟩ := rest
      rw [hstep] at hr
      cases res with
      | ok buf => simp at hr
      | error msg =>
        by_cases ha : attempt = mR
        · simp [ha] at hr
        · simp only [ha, if_false] at hr
          cases hl : (fetchGo envs mR st' (attempt + 1) f).2.2 with
          | nil => rw [hl] at hr; simp at hr
          | cons a as =>
            rw [hl] at hr
            simp only [List.dropLast, List.mem_cons] at hr
            cases hr with
            | inl h => exact ⟨msg, by rw [h]⟩
            | inr h =>
              have := ih st' (attempt + 1) r
              rw [hl] at this
              exact this (by simpa [List.dropLast] using h)

/-- A failure outcome carries the attempt ceiling and the last error, and the
last executed attempt is attempt `mR` and failed with that error. -/
theorem fetchGo_failure (envs : Nat → AttemptEnv) (mR : Nat) :
    ∀ (fuel : Nat) (st : SessState) (attempt : Nat) (msg : String),
      (fetchGo envs mR st attempt fuel).1 = .failure msg →
      ∃ m last, (fetchGo envs mR st attempt fuel).2.2.getLast? = some last ∧
        last.result = .error m ∧ last.attempt = mR ∧
        msg = "Failed after " ++ toString mR ++ " attempts: " ++ m := by
  intro fuel
  induction fuel with
  | zero => intro st attempt msg h; simp [fetchGo] at h
  | succ f ih =>
    intro st attempt msg h
    simp only [fetchGo] at h ⊢
    cases hstep : attemptStep st (envs attempt) with
    | mk res rest =>
      obtain ⟨st', evs⟩ := rest
      rw [hstep] at h
      cases res with
      | ok buf => simp at h
      | error m0 =>
        dsimp only at h ⊢
        by_cases ha : attempt = mR
        · rw [if_pos ha] at h ⊢
          dsimp only at h ⊢
          injection h with h'
          refine ⟨m0,
            ⟨attempt, if 1 < attempt then some (backoff attempt) else none, evs, .error m0⟩,
            ?_, rfl, ha, h'.symm⟩
          simp
        · rw [if_neg ha] at h ⊢
          dsimp only at h ⊢
          rcases ih st' (attempt + 1) msg h with ⟨m, last, hlast, hres, hatt, hmsg⟩
          refine ⟨m, last, ?_, hres, hatt, hmsg⟩
          cases hl : (fetchGo envs mR st' (attempt + 1) f).2.2 with
          | nil => rw [hl] at hlast; simp at hlast
          | cons a as =>
            rw [hl] at hlast
            rw [List.getLast?_cons_cons]
            exact hlast

/-- A success outcome is the buffer of the last executed attempt. -/
theorem fetchGo_success (envs : Nat → AttemptEnv) (mR : Nat) :
    ∀ (fuel : Nat) (st : SessState) (attempt : Nat) (b : List Nat),
      (fetchGo envs mR st attempt fuel).1 = .success b →
      ∃ last, (fetchGo envs mR st attempt fuel).2.2.getLast? = some last ∧
        last.result = .ok b := by
  intro fuel
  induction fuel with
  | zero => intro st attempt b h; simp [fetchGo] at h
  | succ f ih =>
    intro st attempt b h
    simp only [fetchGo] at h ⊢
    cases hstep : attemptStep st (envs attempt) with
    | mk res rest =>
      obtain ⟨st', evs⟩ := rest
      rw [hstep] at h
      cases res with
      | ok buf =>
        dsimp only at h ⊢
        injection h with h'
        refine ⟨⟨attempt, if 1 < attempt then some (backoff attempt) else none, evs, .ok buf⟩,
          ?_, by rw [h']⟩
        simp
      | error m0 =>
        dsimp only at h ⊢
        by_cases ha : attempt = mR
        · rw [if_pos ha] at h
          dsimp only at h
          exact FetchResult.noConfusion h
        · rw [if_neg ha] at h ⊢
          dsimp only at h ⊢
          rcases ih st' (attempt + 1) b h with ⟨last, hlast, hres⟩
          refine ⟨last, ?_, hres⟩
          cases hl : (fetchGo envs mR st' (attempt + 1) f).2.2 with
          | nil => rw [hl] at hlast; simp at hlast
          | cons a as =>
            rw [hl] at hlast
            rw [List.getLast?_cons_cons]
            exact hlast

/-- Every buffer the retry loop returns passed the PDF-signature check. -/
theorem fetchGo_success_isPDF (envs : Nat → AttemptEnv) (mR : Nat) :
    ∀ (fuel : Nat) (st : SessState) (attempt : Nat) (b : List Nat),
      (fetchGo envs mR st attempt fuel).1 = .success b → isPDF b = true := by
  intro fuel
  induction fuel with
  | zero => intro st attempt b h; simp [fetchGo] at h
  | succ f ih =>
    intro st attempt b h
    simp only [fetchGo] at h
    cases hstep : attemptStep st (envs attempt) with
    | mk res rest =>
      obtain ⟨st', evs⟩ := rest
      rw [hstep] at h
      cases res with
      | ok buf =>
        simp only [FetchResult.success.injEq] at h
        exact h ▸ attemptStep_ok_isPDF st (envs attempt) buf st' evs hstep
      | error m0 =>
        by_cases ha : attempt = mR
        · simp [ha] at h
        · simp only [ha, if_false] at h
          exact ih st' (attempt + 1) b h

/-- With the loop invariant `attempt + fuel = mR + 1`, the loop never falls
through: it ends in a returned buffer or a thrown terminal error. -/
theorem fetchGo_ne_undef (envs : Nat → AttemptEnv) (mR : Nat) :
    ∀ (fuel : Nat) (st : SessState) (attempt : Nat),
      1 ≤ fuel → attempt + fuel = mR + 1 →
      (fetchGo envs mR st attempt fuel).1 ≠ .undef := by
  intro fuel
  induction fuel with
  | zero => intro st attempt h1; omega
  | succ f ih =>
    intro st attempt h1 hinv
    simp only [fetchGo]
    cases hstep : attemptStep st (envs attempt) with
    | mk res rest =>
      obtain ⟨st', evs⟩ := rest
      cases res with
      | ok buf => simp
      | error m0 =>
        by_cases ha : attempt = mR
        · simp [ha]
        · have hf : 1 ≤ f := by omega
          have hinv' : (attempt + 1) + f = mR + 1 := by omega
          simpa [ha] using ih st' (attempt + 1) hf hinv'

/-! ### Specification-side descriptions

These definitions follow the spec's words, to be compared with the
embedded code above. -/

/-- Sizes of consecutive groups of `batchSize`, the last possibly smaller. -/
def chunkSizes : Nat → List Nat
  | 0 => []
  | n + 1 =>
    if n + 1 ≤ batchSize then [n + 1]
    else batchSize :: chunkSizes (n + 1 - batchSize)
  termination_by n => n
  decreasing_by simp [batchSize]; omega

/-- The expected batch trace: one launch per group, a 200ms sleep strictly
between consecutive groups. -/
def withDelays : List Nat → List BatchEv
  | [] => []
  | [s] => [.batchFetch s]
  | s :: rest => .batchFetch s :: .interDelay 200 :: withDelays rest

/-- The archive entries the spec promises: one per successful fetch, in
input order, named `{htl_code}-{res_id}.pdf`. -/
def specEntries (fetchRes : Nat → Except String (List Nat)) (reservations : List Reservation) :
    List (String × List Nat) :=
  (reservations.enumFrom 0).filterMap (fun p =>
    match fetchRes p.1 with
    | .ok b => some (jsStr p.2.htl_code ++ "-" ++ jsStr p.2.res_id ++ ".pdf", b)
    | .error _ => none)

/-! ### Supporting lemmas -/

theorem chunkSizes_ne_nil {n : Nat} (h : 0 < n) : chunkSizes n ≠ [] := by
  cases n with
  | zero => omega
  | succ m =>
    unfold chunkSizes
    split <;> simp

theorem chunkSizes_of_le {n : Nat} (h1 : 0 < n) (h2 : n ≤ batchSize) :
    chunkSizes n = [n] := by
  cases n with
  | zero => omega
  | succ m => unfold chunkSizes; simp [h2]

theorem chunkSizes_of_gt {n : Nat} (h2 : batchSize < n) :
    chunkSizes n = batchSize :: chunkSizes (n - batchSize) := by
  cases n with
  | zero => omega
  | succ m =>
    have hnot : ¬ (m + 1 ≤ batchSize) := by omega
    conv_lhs => unfold chunkSizes
    simp [hnot]

theorem withDelays_cons (s : Nat) (l : List Nat) (h : l ≠ []) :
    withDelays (s :: l) = .batchFetch s :: .interDelay 200 :: withDelays l := by
  cases l with
  | nil => exact absurd rfl h
  | cons a as => rfl

theorem fetchBatch_length (fetchRes : Nat → Except String (List Nat))
    (resvs : List Reservation) (i : Nat) :
    (fetchBatch fetchRes resvs i).length = resvs.length := by
  induction resvs generalizing i with
  | nil => rfl
  | cons r rest ih => simp [fetchBatch, ih]

theorem fetchBatch_append (fetchRes : Nat → Except String (List Nat))
    (xs ys : List Reservation) (i : Nat) :
    fetchBatch fetchRes (xs ++ ys) i =
      fetchBatch fetchRes xs i ++ fetchBatch fetchRes ys (i + xs.length) := by
  induction xs generalizing i with
  | nil => simp [fetchBatch]
  | cons x rest ih =>
    have harg : i + (rest.length + 1) = (i + 1) + rest.length := by omega
    simp only [List.cons_append, fetchBatch, List.length_cons]
    rw [show rest.append ys = rest ++ ys from rfl, ih, harg]

/-- The collected results of the whole batching loop are the element-wise
successes. -/
theorem runBatches_results (fetchRes : Nat → Except String (List Nat)) :
    ∀ (resvs : List Reservation) (i : Nat),
      (runBatches fetchRes resvs i).1 = (fetchBatch fetchRes resvs i).filterMap id := by
  have key : ∀ (n : Nat) (resvs : List Reservation), resvs.length = n → ∀ i : Nat,
      (runBatches fetchRes resvs i).1 = (fetchBatch fetchRes resvs i).filterMap id := by
    intro n
    induction n using Nat.strong_induction_on with
    | _ n ih =>
      intro resvs hn i
      match resvs with
      | [] => simp [runBatches, fetchBatch]
      | r0 :: rest0 =>
        rw [runBatches]
        have hlen : ((r0 :: rest0).drop batchSize).length < (r0 :: rest0).length := by
          simp [batchSize]; omega
        have hrec := ih ((r0 :: rest0).drop batchSize).length (hn ▸ hlen)
          ((r0 :: rest0).drop batchSize) rfl (i + batchSize)
        simp only [hrec]
        have hsplit : (r0 :: rest0) =
            (r0 :: rest0).take batchSize ++ (r0 :: rest0).drop batchSize :=
          (List.take_append_drop batchSize (r0 :: rest0)).symm
        conv_rhs => rw [hsplit]
        rw [fetchBatch_append, List.filterMap_append]
        congr 2
        by_cases hb : (r0 :: rest0).length ≤ batchSize
        · have hd : (r0 :: rest0).drop batchSize = [] := List.drop_eq_nil_of_le hb
          simp [hd, fetchBatch]
        · have ht : ((r0 :: rest0).take batchSize).length = batchSize := by
            rw [List.length_take]; omega
          rw [ht]
  intro resvs i
  exact key resvs.length resvs rfl i

/-- The successes of a batch are empty exactly when every index's fetch in
range failed. -/
theorem fetchBatch_filterMap_nil_iff (fetchRes : Nat → Except String (List Nat))
    (resvs : List Reservation) (n : Nat) :
    (fetchBatch fetchRes resvs n).filterMap id = [] ↔
      ∀ j, j < resvs.length → ∃ e, fetchRes (n + j) = .error e := by
  induction resvs generalizing n with
  | nil => simp [fetchBatch]
  | cons r rest ih =>
    rw [fetchBatch]
    cases hf : fetchRes n with
    | ok blob =>
      simp only [hf, List.filterMap_cons, id]
      constructor
      · intro h; cases h
      · intro h
        rcases h 0 (by simp) with ⟨e, he⟩
        rw [Nat.add_zero] at he
        rw [he] at hf
        cases hf
    | error e =>
      simp only [hf, List.filterMap_cons, id]
      rw [ih (n + 1)]
      constructor
      · intro h j hj
        cases j with
        | zero => exact ⟨e, by rw [Nat.add_zero]; exact hf⟩
        | succ k =>
          rcases h k (by simp at hj; omega) with ⟨e', he'⟩
          exact ⟨e', by rw [show n + (k + 1) = n + 1 + k by omega]; exact he'⟩
      · intro h j hj
        rcases h (j + 1) (by simp; omega) with ⟨e', he'⟩
        exact ⟨e', by rw [show n + 1 + j = n + (j + 1) by omega]; exact he'⟩

/-- The entries handed to the zip builder are exactly one per successful
index, in input order, named `{htl_code}-{res_id}.pdf`. -/
theorem fetchBatch_entries (fetchRes : Nat → Except String (List Nat))
    (resvs : List Reservation) (n : Nat) :
    ((fetchBatch fetchRes resvs n).filterMap id).map (fun r => (r.filename, r.blob)) =
      (resvs.enumFrom n).filterMap (fun p =>
        match fetchRes p.1 with
        | .ok b => some (jsStr p.2.htl_code ++ "-" ++ jsStr p.2.res_id ++ ".pdf", b)
        | .error _ => none) := by
  induction resvs generalizing n with
  | nil => simp [fetchBatch]
  | cons r rest ih =>
    rw [fetchBatch, List.enumFrom]
    cases hf : fetchRes n with
    | ok blob => simp only [hf, List.filterMap_cons, id, List.map_cons, ih]
    | error e => simp only [hf, List.filterMap_cons, id, ih]

/-- At most one result per input reservation. -/
theorem fetchBatch_filterMap_length_le (fetchRes : Nat → Except String (List Nat))
    (resvs : List Reservation) (n : Nat) :
    ((fetchBatch fetchRes resvs n).filterMap id).length ≤ resvs.length := by
  calc ((fetchBatch fetchRes resvs n).filterMap id).length
      ≤ (fetchBatch fetchRes resvs n).length := List.length_filterMap_le _ _
    _ = resvs.length := fetchBatch_length fetchRes resvs n

/-- Validation succeeds with one reservation per input element. -/
theorem validateAll_length (items : List Json) (rs : List Reservation)
    (h : validateAll items = .ok rs) : rs.length = items.length := by
  induction items generalizing rs with
  | nil => cases h; rfl
  | cons item rest ih =>
    rw [validateAll] at h
    cases hi : validateItem item with
    | error e => rw [hi] at h; cases h
    | ok r =>
      rw [hi] at h
      cases hr : validateAll rest with
      | error e => rw [hr] at h; cases h
      | ok rs' =>
        rw [hr] at h
        cases h
        simp [ih rs' hr]

/-- A successful validation validates every element. -/
theorem validateAll_mem (items : List Json) (rs : List Reservation)
    (h : validateAll items = .ok rs) :
    ∀ item ∈ items, ∃ r, validateItem item = .ok r := by
  induction items generalizing rs with
  | nil => intro item hmem; cases hmem
  | cons it rest ih =>
    intro item hmem
    rw [validateAll] at h
    cases hi : validateItem it with
    | error e => rw [hi] at h; cases h
    | ok r =>
      rw [hi] at h
      cases hr : validateAll rest with
      | error e => rw [hr] at h; cases h
      | ok rs' =>
        cases hmem with
        | head => exact ⟨r, hi⟩
        | tail _ hm => exact ih rs' hr item hm

/-- The trace of the batching loop depends only on the input length, and is
the groups-of-20 trace with a 200ms sleep between consecutive groups. -/
theorem runBatches_trace (fetchRes : Nat → Except String (List Nat)) :
    ∀ (resvs : List Reservation) (i : Nat),
      (runBatches fetchRes resvs i).2 = withDelays (chunkSizes resvs.length) := by
  have key : ∀ (n : Nat) (resvs : List Reservation), resvs.length = n → ∀ i : Nat,
      (runBatches fetchRes resvs i).2 = withDelays (chunkSizes resvs.length) := by
    intro n
    induction n using Nat.strong_induction_on with
    | _ n ih =>
      intro resvs hn i
      match resvs with
      | [] => simp [runBatches, chunkSizes, withDelays]
      | r0 :: rest0 =>
        rw [runBatches]
        have hlen : ((r0 :: rest0).drop batchSize).length < (r0 :: rest0).length := by
          simp [batchSize]; omega
        have hrec := ih ((r0 :: rest0).drop batchSize).length (hn ▸ hlen)
          ((r0 :: rest0).drop batchSize) rfl (i + batchSize)
        by_cases hb : (r0 :: rest0).length ≤ batchSize
        · have hdrop : (r0 :: rest0).drop batchSize = [] := List.drop_eq_nil_of_le hb
          have htake : (r0 :: rest0).take batchSize = r0 :: rest0 :=
            List.take_of_length_le hb
          have hchunk : chunkSizes (r0 :: rest0).length = [(r0 :: rest0).length] :=
            chunkSizes_of_le (by simp) hb
          rw [hchunk]
          simp [hdrop, htake, runBatches, withDelays]
        · have hne : (r0 :: rest0).drop batchSize ≠ [] := by
            intro hcontra
            have hl := congrArg List.length hcontra
            rw [List.length_drop] at hl
            simp only [List.length_cons, List.length_nil] at hl hb
            omega
          have hdrop : ((r0 :: rest0).drop batchSize).isEmpty = false := by
            cases hd : (r0 :: rest0).drop batchSize with
            | nil => exact absurd hd hne
            | cons a as => rfl
          have htake : ((r0 :: rest0).take batchSize).length = batchSize := by
            rw [List.length_take]; omega
          have hchunk : chunkSizes (r0 :: rest0).length =
              batchSize :: chunkSizes ((r0 :: rest0).length - batchSize) :=
            chunkSizes_of_gt (by omega)
          rw [hchunk, withDelays_cons _ _ (chunkSizes_ne_nil (by omega))]
          simp only [hdrop, Bool.false_eq_true, if_false, hrec, htake, List.length_drop]
          rfl
  intro resvs i
  exact key resvs.length resvs rfl i

/-- Reduction of `POST` on a structurally valid request. -/
theorem POST_valid_reduce (fields : List (String × Json)) (items : List Json)
    (resvs : List Reservation) (fetchRes : Nat → Except String (List Nat))
    (hj : getField (.obj fields) "reservationIds" = some (.arr items))
    (hv : validateAll items = .ok resvs) :
    POST (.ok (.obj fields)) fetchRes =
      (if ((fetchBatch fetchRes resvs 0).filterMap id).length = 0 then
         (mkJsonError 500 "Failed to fetch any PDFs", withDelays (chunkSizes resvs.length))
       else
         ({ status := 200,
            headers := [("Content-Type", "application/zip"),
                        ("Content-Disposition", "attachment; filename=reservations.zip"),
                        ("Access-Control-Allow-Origin", "*"),
                        ("X-PDF-Success-Count",
                          toString ((fetchBatch fetchRes resvs 0).filterMap id).length),
                        ("X-PDF-Fail-Count",
                          toString (resvs.length -
                            ((fetchBatch fetchRes resvs 0).filterMap id).length))],
            jsonError := none,
            zipEntries := some (((fetchBatch fetchRes resvs 0).filterMap id).map
              (fun r => (r.filename, r.blob))) },
          withDelays (chunkSizes resvs.length))) := by
  unfold POST
  dsimp only
  rw [hj]
  dsimp only
  rw [hv]
  dsimp only
  rw [runBatches_results, runBatches_trace]

/-! ### Concrete inputs used by the witnesses -/

def wItems : List Json := [Json.obj [("htl_code", .str "H1"), ("res_id", .str "99")]]

def wBody : Json := .obj [("reservationIds", .arr wItems)]

def wResv : Reservation := ⟨.str "H1", .str "99"⟩

def wFetchOk : Nat → Except String (List Nat) := fun _ => .ok [37, 80, 68, 70]

def wFetchFail : Nat → Except String (List Nat) :=
  fun _ => .error "HTTP 500: Internal Server Error"

/-! ### The claims -/

/-- C1: for every valid, non-empty `reservationIds` input with at least one
successful fetch, the archive handed to the zip builder has exactly one
entry per successful fetch and none for failed ones, each named
`{htl_code}-{res_id}.pdf`, and the succeeded/failed count headers sum to
the input length. -/
theorem claim1_archive_entries (j : Json) (items : List Json) (resvs : List Reservation)
    (fetchRes : Nat → Except String (List Nat))
    (hj : getField j "reservationIds" = some (.arr items))
    (hv : validateAll items = .ok resvs)
    (i0 : Nat) (b0 : List Nat) (hi0 : i0 < resvs.length) (hok : fetchRes i0 = .ok b0) :
    (POST (.ok j) fetchRes).1.status = 200 ∧
    (POST (.ok j) fetchRes).1.zipEntries = some (specEntries fetchRes resvs) ∧
    ∃ s fcount,
      ("X-PDF-Success-Count", toString s) ∈ (POST (.ok j) fetchRes).1.headers ∧
      ("X-PDF-Fail-Count", toString fcount) ∈ (POST (.ok j) fetchRes).1.headers ∧
      s = (specEntries fetchRes resvs).length ∧ s + fcount = items.length := by
  cases j with
  | null => simp [getField] at hj
  | bool b => simp [getField] at hj
  | num n => simp [getField] at hj
  | str s => simp [getField] at hj
  | arr xs => simp [getField] at hj
  | obj fields =>
    have hne : (fetchBatch fetchRes resvs 0).filterMap id ≠ [] := by
      intro hcontra
      rcases (fetchBatch_filterMap_nil_iff fetchRes resvs 0).mp hcontra i0 hi0 with ⟨e, he⟩
      rw [Nat.zero_add, hok] at he
      cases he
    have hlen0 : ¬ ((fetchBatch fetchRes resvs 0).filterMap id).length = 0 := by
      simpa [List.length_eq_zero] using hne
    rw [POST_valid_reduce fields items resvs fetchRes hj hv, if_neg hlen0]
    refine ⟨rfl, ?_, ?_⟩
    · dsimp only
      rw [fetchBatch_entries fetchRes resvs 0]
      rfl
    · refine ⟨((fetchBatch fetchRes resvs 0).filterMap id).length,
        resvs.length - ((fetchBatch fetchRes resvs 0).filterMap id).length,
        by simp, by simp, ?_, ?_⟩
      · have hlm := congrArg List.length (fetchBatch_entries fetchRes resvs 0)
        rw [List.length_map] at hlm
        exact hlm
      · have hle := fetchBatch_filterMap_length_le fetchRes resvs 0
        have hlen := validateAll_length items resvs hv
        omega

/-- Witness for C1 at a concrete valid one-element request whose fetch
succeeds. -/
theorem claim1_archive_entries_witness :
    (POST (.ok wBody) wFetchOk).1.status = 200 ∧
    (POST (.ok wBody) wFetchOk).1.zipEntries = some (specEntries wFetchOk [wResv]) := by
  have h := claim1_archive_entries wBody wItems [wResv] wFetchOk rfl rfl 0 [37, 80, 68, 70]
    (by decide) rfl
  exact ⟨h.1, h.2.1⟩

/-- C6: the orchestrator partitions the input into consecutive groups of 20
(last possibly smaller — 45 inputs give 20, 20, 5), processes groups in
order, and sleeps 200ms after a group exactly when more groups remain. -/
theorem claim6_batch_partition (fetchRes : Nat → Except String (List Nat))
    (resvs : List Reservation) :
    (runBatches fetchRes resvs 0).2 = withDelays (chunkSizes resvs.length) ∧
    chunkSizes 45 = [20, 20, 5] := by
  refine ⟨runBatches_trace fetchRes resvs 0, ?_⟩
  have a := @chunkSizes_of_gt 45 (by norm_num [batchSize])
  have b := @chunkSizes_of_gt 25 (by norm_num [batchSize])
  have c := @chunkSizes_of_le 5 (by norm_num) (by norm_num [batchSize])
  simp only [batchSize] at a b c
  norm_num at a b
  rw [a, b, c]

/-- C9: a valid request none of whose reservations is fetched successfully
is answered with a 500, an error message, and no archive. -/
theorem claim9_zero_successes (j : Json) (items : List Json) (resvs : List Reservation)
    (fetchRes : Nat → Except String (List Nat))
    (hj : getField j "reservationIds" = some (.arr items))
    (hv : validateAll items = .ok resvs)
    (hfail : ∀ i, i < resvs.length → ∃ e, fetchRes i = .error e) :
    (POST (.ok j) fetchRes).1.status = 500 ∧
    (POST (.ok j) fetchRes).1.jsonError = some "Failed to fetch any PDFs" ∧
    (POST (.ok j) fetchRes).1.zipEntries = none := by
  cases j with
  | null => simp [getField] at hj
  | bool b => simp [getField] at hj
  | num n => simp [getField] at hj
  | str s => simp [getField] at hj
  | arr xs => simp [getField] at hj
  | obj fields =>
    have hnil : (fetchBatch fetchRes resvs 0).filterMap id = [] :=
      (fetchBatch_filterMap_nil_iff fetchRes resvs 0).mpr (by simpa using hfail)
    rw [POST_valid_reduce fields items resvs fetchRes hj hv,
      if_pos (by rw [hnil]; rfl)]
    exact ⟨rfl, rfl, rfl⟩

/-- Witness for C9 at a concrete valid request whose only fetch fails. -/
theorem claim9_zero_successes_witness :
    (POST (.ok wBody) wFetchFail).1.status = 500 ∧
    (POST (.ok wBody) wFetchFail).1.jsonError = some "Failed to fetch any PDFs" ∧
    (POST (.ok wBody) wFetchFail).1.zipEntries = none :=
  claim9_zero_successes wBody wItems [wResv] wFetchFail rfl rfl
    (fun _ _ => ⟨"HTTP 500: Internal Server Error", rfl⟩)

/-- Whether a possibly-`undefined` value is an array (`Array.isArray`). -/
def isArrOpt : Option Json → Bool
  | some (.arr _) => true
  | _ => false

/-- An oracle for requests that must not reach the network. -/
def noFetch : Nat → Except String (List Nat) := fun _ => .error "no fetch"

/-- An element with a missing or empty `htl_code`/`res_id` never validates. -/
theorem validateItem_bad (item : Json)
    (h : getField item "htl_code" = none ∨ getField item "htl_code" = some (.str "") ∨
         getField item "res_id" = none ∨ getField item "res_id" = some (.str "")) :
    ∀ r, validateItem item ≠ .ok r := by
  intro r hok
  unfold validateItem at hok
  split at hok
  · cases hok
  · split at hok
    · cases hok
    · rename_i hcond
      rcases h with h | h | h | h <;> rw [h] at hcond <;>
        simp [jsTruthyOpt, jsTruthy] at hcond

/-- Reduction of `POST` when element validation fails. -/
theorem POST_validation_error (fields : List (String × Json)) (items : List Json)
    (msg : String) (fetchRes : Nat → Except String (List Nat))
    (hg : getField (.obj fields) "reservationIds" = some (.arr items))
    (hval : validateAll items = .error msg) :
    POST (.ok (.obj fields)) fetchRes = (mkJsonError 400 msg, []) := by
  unfold POST
  dsimp only
  rw [hg]
  dsimp only
  rw [hval]

/-- C5 counterexample: a request body that decodes to JSON `null` has no
`reservationIds` array, yet the handler answers with a 500 server error (the
destructuring `TypeError` reaches the outer `catch`), not a client error.
No batch is launched. -/
theorem claim5_counterexample :
    (POST (.ok Json.null) noFetch).1.status = 500 ∧
    ¬ (400 ≤ (POST (.ok Json.null) noFetch).1.status ∧
        (POST (.ok Json.null) noFetch).1.status < 500) ∧
    (POST (.ok Json.null) noFetch).2 = [] := by
  refine ⟨rfl, ?_, rfl⟩
  intro hcon
  have h2 := hcon.2
  revert h2
  decide

/-- C5 amended: bodies that fail to parse, or parse to `null`, get a 500
carrying the thrown message; any other body without an array
`reservationIds` field gets a 400 `'Invalid or missing reservationIds'`;
a body whose array has an element failing validation (in particular one
with missing or empty `htl_code`/`res_id`) gets a 400 with the violation
message.  In every such case the batch loop never runs, so no upstream
network call occurs. -/
theorem claim5_amended (body : Except String Json)
    (fetchRes : Nat → Except String (List Nat)) :
    (∀ e, body = .error e → POST body fetchRes = (mkJsonError 500 e, [])) ∧
    (body = .ok .null → POST body fetchRes = (mkJsonError 500 destructureMsg, [])) ∧
    (∀ j, body = .ok j → j ≠ .null → isArrOpt (getField j "reservationIds") = false →
      POST body fetchRes = (mkJsonError 400 "Invalid or missing reservationIds", [])) ∧
    (∀ j items msg, body = .ok j → getField j "reservationIds" = some (.arr items) →
      validateAll items = .error msg →
      POST body fetchRes = (mkJsonError 400 msg, [])) ∧
    (∀ j items, body = .ok j → getField j "reservationIds" = some (.arr items) →
      (∃ item ∈ items,
        getField item "htl_code" = none ∨ getField item "htl_code" = some (.str "") ∨
        getField item "res_id" = none ∨ getField item "res_id" = some (.str "")) →
      ∃ msg, validateAll items = .error msg ∧
        POST body fetchRes = (mkJsonError 400 msg, [])) := by
  refine ⟨?_, ?_, ?_, ?_, ?_⟩
  · intro e hbody; subst hbody; rfl
  · intro hbody; subst hbody; rfl
  · intro j hbody hnull hflat
    subst hbody
    cases j with
    | null => exact absurd rfl hnull
    | bool b => rfl
    | num n => rfl
    | str s => rfl
    | arr xs => rfl
    | obj fields =>
      unfold POST
      dsimp only
      cases hg : getField (.obj fields) "reservationIds" with
      | none => rfl
      | some v =>
        cases v with
        | arr xs => rw [hg] at hflat; simp [isArrOpt] at hflat
        | null => rfl
        | bool b => rfl
        | num n => rfl
        | str s => rfl
        | obj fs => rfl
  · intro j items msg hbody hg hval
    subst hbody
    cases j with
    | null => simp [getField] at hg
    | bool b => simp [getField] at hg
    | num n => simp [getField] at hg
    | str s => simp [getField] at hg
    | arr xs => simp [getField] at hg
    | obj fields => exact POST_validation_error fields items msg fetchRes hg hval
  · intro j items hbody hg hbad
    rcases hbad with ⟨item, hmem, hflags⟩
    cases hval : validateAll items with
    | ok rs =>
      rcases validateAll_mem items rs hval item hmem with ⟨r, hr⟩
      exact absurd hr (validateItem_bad item hflags r)
    | error msg =>
      subst hbody
      cases j with
      | null => simp [getField] at hg
      | bool b => simp [getField] at hg
      | num n => simp [getField] at hg
      | str s => simp [getField] at hg
      | arr xs => simp [getField] at hg
      | obj fields =>
        exact ⟨msg, rfl, POST_validation_error fields items msg fetchRes hg hval⟩

/-- Witness for C5 at a body without the array field and at a body with an
element lacking both fields. -/
theorem claim5_amended_witness :
    POST (.ok (.obj [])) noFetch =
      (mkJsonError 400 "Invalid or missing reservationIds", []) ∧
    POST (.ok (.obj [("reservationIds", .arr [.obj []])])) noFetch =
      (mkJsonError 400 "Invalid reservation object structure", []) := by
  constructor
  · exact (claim5_amended (.ok (.obj [])) noFetch).2.2.1 (.obj []) rfl
      (by intro h; cases h) rfl
  · exact (claim5_amended (.ok (.obj [("reservationIds", .arr [.obj []])])) noFetch).2.2.2.1
      (.obj [("reservationIds", .arr [.obj []])]) [.obj []]
      "Invalid reservation object structure" rfl rfl rfl

/-- A cached session is present when both globals are set. -/
def sessionPresent (st : SessState) : Prop :=
  st.cookies.isSome = true ∧ st.expiry.isSome = true

/-- Sessions produced by a successful login: a non-empty cookie header and a
non-zero expiry timestamp (so JavaScript truthiness agrees with presence). -/
def wfSess (st : SessState) : Prop :=
  (∀ s, st.cookies = some s → s ≠ "") ∧ (∀ e, st.expiry = some e → e ≠ 0)

/-- Under well-formedness, the code's truthiness test agrees with
"a session is present and not yet expired". -/
theorem cacheFresh_iff (st : SessState) (now : Nat) (hwf : wfSess st) :
    cacheFresh st now = true ↔ (sessionPresent st ∧ now < st.expiry.getD 0) := by
  obtain ⟨c, e⟩ := st
  obtain ⟨hwc, hwe⟩ := hwf
  cases c with
  | none => simp [cacheFresh, jsTruthyStr, sessionPresent]
  | some s =>
    cases e with
    | none => simp [cacheFresh, jsTruthyStr, jsTruthyNum, sessionPresent]
    | some ev =>
      have hs : s ≠ "" := hwc s rfl
      have he : ev ≠ 0 := hwe ev rfl
      simp [cacheFresh, jsTruthyStr, jsTruthyNum, sessionPresent, hs, he]

/-- C7: `getSessionCookies` returns the cached header exactly when a cached
session exists and the current time is strictly before its expiry; otherwise
it logs in, and on a successful login caches and returns the new header. -/
theorem claim7_session_cache (st : SessState) (now : Nat) (resp : LoginResp)
    (hwf : wfSess st) :
    ((sessionPresent st ∧ now < st.expiry.getD 0) →
      getSessionCookies st now resp = (.ok (st.cookies.getD ""), st, [])) ∧
    (¬ (sessionPresent st ∧ now < st.expiry.getD 0) →
      getSessionCookies st now resp = loginM st now resp ∧
      (resp.setCookies ≠ [] →
        getSessionCookies st now resp =
          (.ok (String.intercalate "; " (resp.setCookies.map cookiePart)),
           { cookies := some (String.intercalate "; " (resp.setCookies.map cookiePart)),
             expiry := some (now + 30 * 60 * 1000) }, [.login]))) := by
  constructor
  · intro hc
    unfold getSessionCookies
    rw [if_pos ((cacheFresh_iff st now hwf).mpr hc)]
  · intro hc
    have hff : ¬ (cacheFresh st now = true) := fun h => hc ((cacheFresh_iff st now hwf).mp h)
    constructor
    · unfold getSessionCookies
      rw [if_neg hff]
    · intro hne
      unfold getSessionCookies
      rw [if_neg hff]
      unfold loginM
      rw [if_neg (by simpa [List.length_eq_zero] using hne)]

/-- Witness for C7: a fresh cache is returned as-is; an expired one triggers
a login that caches the joined cookie header with a 30-minute expiry. -/
theorem claim7_session_cache_witness :
    getSessionCookies ⟨some "sid=1", some 100⟩ 50 ⟨[]⟩ =
      (.ok "sid=1", ⟨some "sid=1", some 100⟩, []) ∧
    getSessionCookies ⟨some "sid=1", some 100⟩ 200 ⟨["a=1; Path=/", "b=2"]⟩ =
      (.ok "a=1; b=2", ⟨some "a=1; b=2", some 1800200⟩, [.login]) := by
  have hwf : wfSess ⟨some "sid=1", some 100⟩ :=
    ⟨fun s hs => by cases hs; decide, fun e he => by cases he; decide⟩
  constructor
  · exact (claim7_session_cache ⟨some "sid=1", some 100⟩ 50 ⟨[]⟩ hwf).1
      ⟨⟨rfl, rfl⟩, by decide⟩
  · exact ((claim7_session_cache ⟨some "sid=1", some 100⟩ 200 ⟨["a=1; Path=/", "b=2"]⟩ hwf).2
      (fun hcon => by have := hcon.2; simp at this)).2 (by simp)

/-- C8: `login` fails with the authentication error exactly when the
response carries zero cookies; otherwise it caches and returns the
semicolon-joined `name=value` parts with an expiry 30 minutes ahead. -/
theorem claim8_login (st : SessState) (now : Nat) (resp : LoginResp) :
    (resp.setCookies = [] →
      loginM st now resp = (.error "Login failed - no cookies received", st, [.login])) ∧
    (resp.setCookies ≠ [] →
      loginM st now resp =
        (.ok (String.intercalate "; " (resp.setCookies.map cookiePart)),
         { cookies := some (String.intercalate "; " (resp.setCookies.map cookiePart)),
           expiry := some (now + 30 * 60 * 1000) }, [.login])) := by
  constructor
  · intro h
    unfold loginM
    rw [if_pos (by rw [h]; rfl)]
  · intro h
    unfold loginM
    rw [if_neg (by simpa [List.length_eq_zero] using h)]

/-- Witness for C8: an empty cookie set fails and leaves the cache alone; a
two-cookie response strips attributes, joins with `; `, and sets the
30-minute expiry. -/
theorem claim8_login_witness :
    loginM ⟨none, none⟩ 0 ⟨[]⟩ =
      (.error "Login failed - no cookies received", ⟨none, none⟩, [.login]) ∧
    loginM ⟨none, none⟩ 0 ⟨["JSESSIONID=abc; Path=/; HttpOnly", "cfid=42"]⟩ =
      (.ok "JSESSIONID=abc; cfid=42",
       ⟨some "JSESSIONID=abc; cfid=42", some 1800000⟩, [.login]) := by
  constructor
  · exact (claim8_login ⟨none, none⟩ 0 ⟨[]⟩).1 rfl
  · exact (claim8_login ⟨none, none⟩ 0 ⟨["JSESSIONID=abc; Path=/; HttpOnly", "cfid=42"]⟩).2
      (by simp)

/-- A login answer carrying two session cookies. -/
def wLoginOk : LoginResp := ⟨["JSESSIONID=abc123; Path=/; HttpOnly", "cfid=42; Path=/"]⟩

/-- A successful PDF response. -/
def wResp200 : FetchResp :=
  { status := 200, statusText := "OK", location := none, body := [37, 80, 68, 70] }

/-- A server-error response. -/
def wResp500 : FetchResp :=
  { status := 500, statusText := "Internal Server Error", location := none, body := [] }

/-- A login-redirect response. -/
def wResp302 : FetchResp :=
  { status := 302, statusText := "Found",
    location := some "/login/login?forward=%2Fres%2Fprint.cfm", body := [] }

/-- An attempt oracle whose document fetch always yields a server error. -/
def wEnvsFail : Nat → AttemptEnv :=
  fun _ => { now := 10, loginResp := wLoginOk, resp1 := wResp500,
             reloginResp := wLoginOk, resp2 := wResp500 }

/-- C2: the fetcher makes at most `maxRetries` (default 3) consecutively
numbered attempts; before each attempt after the first it sleeps exactly
`min (1000 * 2 ^ (attempt - 1)) 5000` ms; every non-final executed attempt
failed transiently (hence led to the next attempt); exhausting the attempts
ends in the terminal error naming the attempt count and the last error; and
the loop never falls through. -/
theorem claim2_retry_loop (envs : Nat → AttemptEnv) (st : SessState) (mR : Nat)
    (hmR : 1 ≤ mR) :
    generatePdfForReservation envs st = generatePdfForReservation envs st 3 ∧
    (generatePdfForReservation envs st mR).2.2.length ≤ mR ∧
    (generatePdfForReservation envs st mR).2.2.map AttemptRec.attempt =
      List.range' 1 (generatePdfForReservation envs st mR).2.2.length ∧
    (∀ r ∈ (generatePdfForReservation envs st mR).2.2,
      r.sleptMs = if 1 < r.attempt
        then some (min (1000 * 2 ^ (r.attempt - 1)) 5000) else none) ∧
    (∀ r ∈ (generatePdfForReservation envs st mR).2.2.dropLast,
      ∃ m, r.result = .error m) ∧
    (∀ msg, (generatePdfForReservation envs st mR).1 = .failure msg →
      ∃ m last, (generatePdfForReservation envs st mR).2.2.getLast? = some last ∧
        last.result = .error m ∧ last.attempt = mR ∧
        msg = "Failed after " ++ toString mR ++ " attempts: " ++ m) ∧
    (∀ b, (generatePdfForReservation envs st mR).1 = .success b →
      ∃ last, (generatePdfForReservation envs st mR).2.2.getLast? = some last ∧
        last.result = .ok b) ∧
    (generatePdfForReservation envs st mR).1 ≠ .undef := by
  refine ⟨rfl, fetchGo_length_le envs mR mR st 1, fetchGo_attempts envs mR mR st 1, ?_,
    fetchGo_dropLast_err envs mR mR st 1, fetchGo_failure envs mR mR st 1,
    fetchGo_success envs mR mR st 1, fetchGo_ne_undef envs mR mR st 1 hmR (by omega)⟩
  intro r hr
  simpa [backoff] using fetchGo_sleeps envs mR mR st 1 r hr

/-- Witness for C2 with the default three attempts and an always-failing
document endpoint. -/
theorem claim2_retry_loop_witness :
    (generatePdfForReservation wEnvsFail ⟨none, none⟩ 3).2.2.length ≤ 3 ∧
    (generatePdfForReservation wEnvsFail ⟨none, none⟩ 3).1 ≠ .undef := by
  have h := claim2_retry_loop wEnvsFail ⟨none, none⟩ 3 (by decide)
  exact ⟨h.2.1, h.2.2.2.2.2.2.2⟩

/-- One unfolding of the retry loop when the current attempt fails
transiently and is not the final one. -/
theorem fetchGo_cons_of_error (envs : Nat → AttemptEnv) (mR : Nat) (st : SessState)
    (attempt fuel : Nat) (msg : String) (st' : SessState) (evs : List Ev)
    (hstep : attemptStep st (envs attempt) = (.error msg, st', evs))
    (hne : ¬ attempt = mR) :
    (fetchGo envs mR st attempt (fuel + 1)).2.2 =
      ⟨attempt, if 1 < attempt then some (backoff attempt) else none, evs, .error msg⟩ ::
        (fetchGo envs mR st' (attempt + 1) fuel).2.2 := by
  simp only [fetchGo]
  rw [hstep]
  dsimp only
  rw [if_neg hne]

/-- Reduction of one attempt in the handled login-redirect case, starting
from a valid cached session, when the re-login returns cookies. -/
theorem attemptStep_redirect (st : SessState) (env : AttemptEnv)
    (hfresh : cacheFresh st env.now = true)
    (h302 : env.resp1.status = 302) (hfwd : locForward env.resp1 = true)
    (hre : env.reloginResp.setCookies ≠ []) :
    attemptStep st env =
      ((if !respOk env.resp2 then
          .error ("HTTP " ++ toString env.resp2.status ++ ": " ++ env.resp2.statusText)
        else if !isPDF env.resp2.body then
          .error "Response is not a valid PDF (likely HTML error page)"
        else .ok env.resp2.body),
       { cookies := some (String.intercalate "; " (env.reloginResp.setCookies.map cookiePart)),
         expiry := some (env.now + 30 * 60 * 1000) },
       [.docFetch, .login, .docFetch]) := by
  unfold attemptStep getSessionCookies
  rw [if_pos hfresh]
  dsimp only
  rw [if_pos (by rw [h302, hfwd]; rfl)]
  have hfr : cacheFresh { st with cookies := none } env.now = false := rfl
  rw [hfr]
  simp only [Bool.false_eq_true, if_false]
  unfold loginM
  rw [if_neg (by simpa [List.length_eq_zero] using hre)]
  dsimp only
  cases hok : respOk env.resp2 <;> cases hpdf : isPDF env.resp2.body <;>
    simp [hok, hpdf]

/-- C3: a 302 whose target carries the `forward=` marker invalidates the
session, re-logs-in exactly once, and retries the document request once
within the same attempt; a successful retry returns its buffer without
consuming another attempt, and a non-success retry is a transient error that
sends the outer loop to the next attempt. -/
theorem claim3_login_redirect (st : SessState) (env : AttemptEnv)
    (hfresh : cacheFresh st env.now = true)
    (h302 : env.resp1.status = 302) (hfwd : locForward env.resp1 = true)
    (hre : env.reloginResp.setCookies ≠ []) :
    (attemptStep st env).2.2 = [.docFetch, .login, .docFetch] ∧
    (attemptStep st env).2.1 =
      { cookies := some (String.intercalate "; " (env.reloginResp.setCookies.map cookiePart)),
        expiry := some (env.now + 30 * 60 * 1000) } ∧
    (respOk env.resp2 = true → isPDF env.resp2.body = true →
      (attemptStep st env).1 = .ok env.resp2.body) ∧
    (respOk env.resp2 = false →
      (attemptStep st env).1 =
        .error ("HTTP " ++ toString env.resp2.status ++ ": " ++ env.resp2.statusText)) ∧
    (∀ envs : Nat → AttemptEnv, envs 1 = env →
      respOk env.resp2 = true → isPDF env.resp2.body = true →
      (generatePdfForReservation envs st 3).1 = .success env.resp2.body ∧
      (generatePdfForReservation envs st 3).2.2.length = 1) ∧
    (∀ envs : Nat → AttemptEnv, envs 1 = env → respOk env.resp2 = false →
      2 ≤ (generatePdfForReservation envs st 3).2.2.length) := by
  have hred := attemptStep_redirect st env hfresh h302 hfwd hre
  refine ⟨by rw [hred], by rw [hred], ?_, ?_, ?_, ?_⟩
  · intro hok hpdf
    rw [hred]
    simp [hok, hpdf]
  · intro hok
    rw [hred]
    simp [hok]
  · intro envs henv hok hpdf
    have hstep : attemptStep st (envs 1) = (.ok env.resp2.body,
        { cookies := some (String.intercalate "; "
            (env.reloginResp.setCookies.map cookiePart)),
          expiry := some (env.now + 30 * 60 * 1000) },
        [.docFetch, .login, .docFetch]) := by
      rw [henv, hred]
      simp [hok, hpdf]
    unfold generatePdfForReservation
    simp only [fetchGo]
    rw [hstep]
    exact ⟨rfl, rfl⟩
  · intro envs henv hok
    have hstep : attemptStep st (envs 1) = (.error ("HTTP " ++ toString env.resp2.status
          ++ ": " ++ env.resp2.statusText),
        { cookies := some (String.intercalate "; "
            (env.reloginResp.setCookies.map cookiePart)),
          expiry := some (env.now + 30 * 60 * 1000) },
        [.docFetch, .login, .docFetch]) := by
      rw [henv, hred]
      simp [hok]
    have hcons := fetchGo_cons_of_error envs 3 st 1 2 _ _ _ hstep (by omega)
    have hne := fetchGo_ne_nil envs 3
      { cookies := some (String.intercalate "; "
          (env.reloginResp.setCookies.map cookiePart)),
        expiry := some (env.now + 30 * 60 * 1000) } (1 + 1) 2 (by omega)
    have hpos := List.length_pos.mpr hne
    show 2 ≤ (fetchGo envs 3 st 1 (2 + 1)).2.2.length
    rw [hcons]
    simp only [List.length_cons]
    omega

/-- A session state fresh at time 10. -/
def wStFresh : SessState := ⟨some "sid=1", some 1000⟩

/-- An attempt oracle: a login-redirect answer, then a clean PDF on the
in-attempt retry. -/
def wEnvRedirect : AttemptEnv :=
  { now := 10, loginResp := wLoginOk, resp1 := wResp302,
    reloginResp := wLoginOk, resp2 := wResp200 }

/-- Witness for C3: one fetch, one re-login, one retried fetch, and overall
success within the first attempt. -/
theorem claim3_login_redirect_witness :
    (attemptStep wStFresh wEnvRedirect).2.2 = [.docFetch, .login, .docFetch] ∧
    (generatePdfForReservation (fun _ => wEnvRedirect) wStFresh 3).1 =
      .success [37, 80, 68, 70] ∧
    (generatePdfForReservation (fun _ => wEnvRedirect) wStFresh 3).2.2.length = 1 := by
  have h := claim3_login_redirect wStFresh wEnvRedirect rfl rfl (by decide)
    (by simp [wEnvRedirect, wLoginOk])
  have h5 := h.2.2.2.2.1 (fun _ => wEnvRedirect) rfl rfl rfl
  exact ⟨h.1, h5.1, h5.2⟩

/-- A 302 answer whose target has no `forward=` marker, carrying a PDF body. -/
def cEnv302 : AttemptEnv :=
  { now := 10, loginResp := ⟨[]⟩,
    resp1 := { status := 302, statusText := "Found",
               location := some "/somewhere/else", body := [37, 80, 68, 70] },
    reloginResp := ⟨[]⟩, resp2 := wResp500 }

/-- C4 counterexample: a 302 response whose redirect target lacks the
`forward=` marker is non-successful and not the handled login-redirect case,
yet the attempt does not raise an error carrying the HTTP status — it falls
through to body validation and here returns the body as a success. -/
theorem claim4_counterexample :
    respOk cEnv302.resp1 = false ∧
    cEnv302.resp1.status = 302 ∧
    locForward cEnv302.resp1 = false ∧
    (attemptStep wStFresh cEnv302).1 = .ok [37, 80, 68, 70] := by
  exact ⟨rfl, rfl, by decide, rfl⟩

/-- C4 amended: with a session available, a response whose status is neither
successful nor 302 makes the attempt raise the transient error carrying the
HTTP status; a 302 without the login-redirect marker instead proceeds to
body reading and PDF validation. -/
theorem claim4_amended (st : SessState) (env : AttemptEnv)
    (hfresh : cacheFresh st env.now = true) :
    (respOk env.resp1 = false → env.resp1.status ≠ 302 →
      attemptStep st env =
        (.error ("HTTP " ++ toString env.resp1.status ++ ": " ++ env.resp1.statusText),
         st, [.docFetch])) ∧
    (env.resp1.status = 302 → locForward env.resp1 = false →
      attemptStep st env =
        ((if isPDF env.resp1.body then .ok env.resp1.body
          else .error "Response is not a valid PDF (likely HTML error page)"),
         st, [.docFetch])) := by
  constructor
  · intro hok h302
    unfold attemptStep getSessionCookies
    rw [if_pos hfresh]
    dsimp only
    have hc1 : (decide (env.resp1.status = 302) && locForward env.resp1) = false := by
      simp [h302]
    rw [hc1]
    simp only [Bool.false_eq_true, if_false]
    have hc2 : (!respOk env.resp1 && decide (¬ env.resp1.status = 302)) = true := by
      simp [hok, h302]
    rw [hc2]
    simp
  · intro h302 hfwd
    unfold attemptStep getSessionCookies
    rw [if_pos hfresh]
    dsimp only
    have hc1 : (decide (env.resp1.status = 302) && locForward env.resp1) = false := by
      simp [hfwd]
    rw [hc1]
    simp only [Bool.false_eq_true, if_false]
    have hc2 : (!respOk env.resp1 && decide (¬ env.resp1.status = 302)) = false := by
      simp [h302]
    rw [hc2]
    simp only [Bool.false_eq_true, if_false]
    cases hpdf : isPDF env.resp1.body <;> simp [hpdf]

/-- Witness for C4's amended statement: a 500 answer raises `HTTP 500`, and
a 302 without the marker with a PDF body returns the body. -/
theorem claim4_amended_witness :
    attemptStep wStFresh (wEnvsFail 0) =
      (.error "HTTP 500: Internal Server Error", wStFresh, [.docFetch]) ∧
    attemptStep wStFresh cEnv302 = (.ok [37, 80, 68, 70], wStFresh, [.docFetch]) := by
  constructor
  · exact ((claim4_amended wStFresh (wEnvsFail 0) rfl).1 rfl (by decide))
  · exact ((claim4_amended wStFresh cEnv302 rfl).2 rfl (by decide))

/-- Every collected result's bytes come from a successful fetch. -/
theorem fetchBatch_mem_blob (fetchRes : Nat → Except String (List Nat)) :
    ∀ (resvs : List Reservation) (n : Nat) (r : PdfResult),
      r ∈ (fetchBatch fetchRes resvs n).filterMap id → ∃ i, fetchRes i = .ok r.blob := by
  intro resvs
  induction resvs with
  | nil => intro n r hr; simp [fetchBatch] at hr
  | cons x rest ih =>
    intro n r hr
    rw [fetchBatch] at hr
    cases hf : fetchRes n with
    | ok blob =>
      rw [hf] at hr
      simp only [List.filterMap_cons, id] at hr
      rcases List.mem_cons.mp hr with h | h
      · exact ⟨n, by rw [h]; exact hf⟩
      · exact ih (n + 1) r h
    | error e =>
      rw [hf] at hr
      simp only [List.filterMap_cons, id] at hr
      exact ih (n + 1) r hr

/-- C10: `isPDF` accepts exactly the buffers of length at least 4 starting
with the ASCII bytes of `%PDF`; shorter bodies (the empty one included) are
rejected; every buffer the fetcher returns passed the check; and, whenever
the fetch oracle only returns such buffers, so do all archive entries. -/
theorem claim10_pdf_signature :
    (∀ buf : List Nat, isPDF buf = true ↔ 4 ≤ buf.length ∧ buf.take 4 = [37, 80, 68, 70]) ∧
    (∀ buf : List Nat, buf.length < 4 → isPDF buf = false) ∧
    isPDF [] = false ∧
    (∀ (envs : Nat → AttemptEnv) (st : SessState) (mR : Nat) (b : List Nat),
      (generatePdfForReservation envs st mR).1 = .success b → isPDF b = true) ∧
    (∀ (body : Except String Json) (fetchRes : Nat → Except String (List Nat)),
      (∀ i b, fetchRes i = .ok b → isPDF b = true) →
      ∀ entry ∈ (POST body fetchRes).1.zipEntries.getD [], isPDF entry.2 = true) := by
  have hchar : ∀ buf : List Nat,
      isPDF buf = true ↔ 4 ≤ buf.length ∧ buf.take 4 = [37, 80, 68, 70] := by
    intro buf
    simp only [isPDF, pdfSignature]
    split
    · rename_i hlt
      simp only [Bool.false_eq_true, false_iff]
      intro hand
      omega
    · rename_i hge
      constructor
      · intro hbeq
        exact ⟨by omega, by simpa using hbeq⟩
      · intro hand
        simpa using hand.2
  refine ⟨hchar, ?_, rfl, ?_, ?_⟩
  · intro buf hlt
    cases h : isPDF buf with
    | false => rfl
    | true =>
      rcases (hchar buf).mp h with ⟨hle, -⟩
      omega
  · intro envs st mR b h
    exact fetchGo_success_isPDF envs mR mR st 1 b h
  · intro body fetchRes hfr entry hmem
    cases body with
    | error e => simp [POST, mkJsonError] at hmem
    | ok j =>
      cases j with
      | null => simp [POST, mkJsonError] at hmem
      | bool b => simp [POST, mkJsonError, getField] at hmem
      | num n => simp [POST, mkJsonError, getField] at hmem
      | str s => simp [POST, mkJsonError, getField] at hmem
      | arr xs => simp [POST, mkJsonError, getField] at hmem
      | obj fields =>
        cases hg : getField (.obj fields) "reservationIds" with
        | none =>
          unfold POST at hmem
          dsimp only at hmem
          rw [hg] at hmem
          simp [mkJsonError] at hmem
        | some v =>
          cases v with
          | null =>
            unfold POST at hmem; dsimp only at hmem; rw [hg] at hmem
            simp [mkJsonError] at hmem
          | bool b =>
            unfold POST at hmem; dsimp only at hmem; rw [hg] at hmem
            simp [mkJsonError] at hmem
          | num n =>
            unfold POST at hmem; dsimp only at hmem; rw [hg] at hmem
            simp [mkJsonError] at hmem
          | str s =>
            unfold POST at hmem; dsimp only at hmem; rw [hg] at hmem
            simp [mkJsonError] at hmem
          | obj fs =>
            unfold POST at hmem; dsimp only at hmem; rw [hg] at hmem
            simp [mkJsonError] at hmem
          | arr items =>
            cases hval : validateAll items with
            | error msg =>
              rw [POST_validation_error fields items msg fetchRes hg hval] at hmem
              simp [mkJsonError] at hmem
            | ok resvs =>
              rw [POST_valid_reduce fields items resvs fetchRes hg hval] at hmem
              by_cases hz : ((fetchBatch fetchRes resvs 0).filterMap id).length = 0
              · rw [if_pos hz] at hmem
                simp [mkJsonError] at hmem
              · rw [if_neg hz] at hmem
                have hmem2 : entry ∈ ((fetchBatch fetchRes resvs 0).filterMap id).map
                    (fun r => (r.filename, r.blob)) := hmem
                rcases List.mem_map.mp hmem2 with ⟨r, hrmem, hentry⟩
                rcases fetchBatch_mem_blob fetchRes resvs 0 r hrmem with ⟨i, hi⟩
                have hb := hfr i r.blob hi
                rw [← hentry]
                exact hb

/-- Witness for C10: the signature accepts the 4-byte signature itself, and
a concrete one-reservation request's archive entry passed the check. -/
theorem claim10_pdf_signature_witness :
    isPDF [37, 80, 68, 70] = true ∧
    isPDF (("H1-99.pdf", [37, 80, 68, 70]) : String × List Nat).2 = true := by
  have h := claim10_pdf_signature
  constructor
  · exact (h.1 [37, 80, 68, 70]).mpr (by decide)
  · refine h.2.2.2.2 (.ok wBody) wFetchOk ?_ ("H1-99.pdf", [37, 80, 68, 70]) ?_
    · intro i b hb
      cases hb
      rfl
    · show ("H1-99.pdf", [37, 80, 68, 70]) ∈
        ((POST (.ok (.obj [("reservationIds", .arr wItems)])) wFetchOk).1.zipEntries.getD [])
      rw [POST_valid_reduce [("reservationIds", .arr wItems)] wItems [wResv] wFetchOk rfl rfl]
      rw [if_neg (by decide)]
      show ("H1-99.pdf", [37, 80, 68, 70]) ∈
        ((fetchBatch wFetchOk [wResv] 0).filterMap id).map (fun r => (r.filename, r.blob))
      simp [fetchBatch, wResv, wFetchOk, jsStr]

end CreateZip
